import Mathlib

/-!
Shallow embedding of the caching core of firehose-to-syslog.

It models the entity record, the GUID canonicalization step, the
read-through `getEntity` pipeline of the persistent (bolt) backend and
of the in-memory backend, the disabled backend, record normalization
(app-name suffix stripping and TTL jitter), and the three-hop `GetApp`
assembler.

Modelling conventions: time is `Int` nanoseconds; the `math/rand`
`Float64` draw is an explicitly passed rational in `[0, 1)` represented
as an integer fraction `r = r.1 / r.2` with `0 ≤ r.1 < r.2` (every
`Float64` value in `[0, 1)` is such a fraction); Go's
`time.Duration(float64 ...)` integer conversion truncates toward
zero, which on the nonnegative products appearing here is the floor;
cache stores are association lists where a put prepends (so lookup sees
the newest binding); the remote API is a function
`fetch : entityType → uuid → Option Entity` (`none` models any failed
request: transport error, bad status, or decode failure); the effects a
call performs (cache reads, cache writes, remote fetches) are returned
as an explicit event list.
-/

/-- Decoded JSON values as they appear in an app's `environment_json`
map. Go stores them as `interface\x7b\x7d`; comparison against a string is
true only for a string of equal contents. -/
inductive JVal
  | str  (s : String)
  | bool (b : Bool)
  | num  (n : Int)
  | null
  deriving DecidableEq, Repr

/-- The `entity` struct shared by both backends (name, space guid,
organization guid, environment map, TTL expiry timestamp). -/
structure Entity where
  name : String
  spaceGUID : String
  organizationGUID : String
  environment : List (String × JVal)
  TTL : Int
  deriving DecidableEq, Repr

/-- The Go zero value `entity\x7b\x7d` substituted for missing apps. -/
def Entity.empty : Entity := ⟨"", "", "", [], 0⟩

/-- Go map indexing returns the zero value (a nil interface) for a
missing key; a decoded JSON `null` is also a nil interface, so both are
modelled as `JVal.null`. -/
def envLookup (env : List (String × JVal)) (k : String) : JVal :=
  (env.lookup k).getD JVal.null

/-- `entity.appIsOptOut`: `e.Environment["F2S_DISABLE_LOGGING"] == "true"`. -/
def Entity.appIsOptOut (e : Entity) : Bool :=
  envLookup e.environment "F2S_DISABLE_LOGGING" == JVal.str "true"

/-- Modelled from the spec: the `App` output aggregate (spec section 3);
its Go declaration (`caching.go`) is not among the provided source
files, but every field assignment appears verbatim in
`CachingBolt.GetApp` and `CachingMemory.GetApp`. -/
structure App where
  guid : String
  name : String
  spaceGuid : String
  spaceName : String
  orgGuid : String
  orgName : String
  ignoredApp : Bool
  deriving DecidableEq, Repr

/-- The distinct failures the embedded operations can surface:
`invalidGuid` models the guid-parse error returned by the UUID library,
`fetchFailed` models any failed remote request. -/
inductive CacheErr
  | invalidGuid
  | fetchFailed
  deriving DecidableEq, Repr

/-- Observable effects of a call, in order of occurrence. -/
inductive Event
  | cacheRead   (key : String)
  | cacheWrite  (key : String)
  | remoteFetch (entityType uuid : String)
  deriving DecidableEq, Repr

/-- Lowercase an ASCII letter, leave everything else unchanged
(the canonical form of a UUID is lowercase). -/
def lowerChar (c : Char) : Char :=
  if 65 ≤ c.toNat ∧ c.toNat ≤ 90 then Char.ofNat (c.toNat + 32) else c

/-- ASCII hex digit, either case. -/
def isHexDigit (c : Char) : Bool :=
  decide ((48 ≤ c.toNat ∧ c.toNat ≤ 57) ∨ (97 ≤ c.toNat ∧ c.toNat ≤ 102) ∨
    (65 ≤ c.toNat ∧ c.toNat ≤ 70))

/-- Index positions of the four hyphens in a canonical UUID string. -/
def hyphenPositions : List Nat := [8, 13, 18, 23]

/-- Character-level shape of a 36-character hyphenated UUID
(hyphens at 8, 13, 18, 23, hex digits elsewhere). -/
def uuidShape (cs : List Char) : Bool :=
  (List.range 36).all fun i =>
    if i ∈ hyphenPositions then decide ((cs.getD i default).toNat = 45)
    else isHexDigit (cs.getD i default)

/-- Modelled from the spec: the GUID Canonicalizer (spec section 4.1).
The source delegates parsing to an external UUID library that is not
part of this repository; per the spec, it parses the input as a UUID
and on success returns the canonical lowercase hyphenated form, failing
on any string that does not parse. This model accepts the 36-character
hyphenated form in either case and lowercases it. -/
def canonicalize (raw : String) : Option String :=
  let cs := raw.data
  if cs.length = 36 ∧ uuidShape cs = true then
    some (String.mk (cs.map lowerChar))
  else
    none

/-- `strings.HasSuffix` on the character sequence. -/
def strEndsWith (s sfx : String) : Bool := sfx.data.isSuffixOf s.data

/-- Go's `name[:len(name)-len(suffix)]` slice: drop the last `n`
characters. -/
def strDropRight (s : String) (n : Nat) : String :=
  String.mk (s.data.take (s.data.length - n))

/-- The suffix-stripping loop of `normaliseAndSaveEntityToDatabase`:
walk the configured list in order, strip the first suffix that matches
and stop (`break`); leave the name unchanged when none matches. -/
def stripAppSuffix : List String → String → String
  | [], name => name
  | s :: rest, name =>
    if strEndsWith name s = true then strDropRight name s.length
    else stripAppSuffix rest name

/-- A valid `rand.Float64()` draw represented as the fraction
`r.1 / r.2`: nonnegative and strictly below one. -/
def validDraw (r : Int × Int) : Prop := 0 ≤ r.1 ∧ r.1 < r.2

instance (r : Int × Int) : Decidable (validDraw r) := by
  unfold validDraw; infer_instance

/-- The jittered TTL offset of the bolt backend:
`time.Duration(float64(ttl.Nanoseconds()) * (0.75 + rand.Float64()/2.0))`,
with the fraction `r.1 / r.2` standing for the `rand.Float64()` draw.
Exactly, `ttl * (3/4 + r/2) = ttl * (3*r.2 + 2*r.1) / (4*r.2)`, and the
truncating float-to-`int64` conversion is the floor on the nonnegative
products appearing here, i.e. Euclidean division by the positive
denominator. -/
def goJitterOffset (ttlNs : Int) (r : Int × Int) : Int :=
  ttlNs * (3 * r.2 + 2 * r.1) / (4 * r.2)

/-- `CachingBoltConfig`: the fields the embedded operations consult
(the boltdb file path concerns only the storage handle and is not
modelled). -/
structure CachingBoltConfig where
  ignoreMissingApps : Bool
  cacheInvalidateTTL : Int
  stripAppSuffixes : List String
  deriving Repr

/-- `CachingMemoryConfig`: note there is no suffix-list field. -/
structure CachingMemoryConfig where
  ignoreMissingApps : Bool
  cacheInvalidateTTL : Int
  deriving Repr

/-- The bolt backend's single bucket, as an association list from the
composite key to the stored record; a put prepends. -/
structure BoltState where
  store : List (String × Entity)
  deriving DecidableEq, Repr

/-- `makeBoltKey`: the composite `"<kind>/<guid>"` key. -/
def makeBoltKey (entityType uuid : String) : String :=
  entityType ++ "/" ++ uuid

/-- The in-memory backend's `entityCache` map, same key shape. -/
structure MemState where
  entityCache : List (String × Entity)
  deriving DecidableEq, Repr

/-- The Go idiom `if err != nil { if ignore { x = entity\x7b\x7d } else
{ return err } }` applied to a lookup result. -/
def ignoreFallback (ignore : Bool) (res : Except CacheErr Entity) :
    Except CacheErr Entity :=
  match res with
  | Except.ok e => Except.ok e
  | Except.error err =>
    if ignore = true then Except.ok Entity.empty else Except.error err

namespace CachingBolt

/-- `normaliseAndSaveEntityToDatabase`: strip a configured name suffix
for apps, set the jittered TTL, and write the record to the bucket
under the composite key. Returns the (mutated) record, the new store
state, and the write event. -/
def normaliseAndSaveEntityToDatabase (cfg : CachingBoltConfig) (now : Int)
    (r : Int × Int) (st : BoltState) (entityType uuid : String) (nv : Entity) :
    Entity × BoltState × List Event :=
  let nv1 :=
    if entityType = "apps" then
      { nv with name := stripAppSuffix cfg.stripAppSuffixes nv.name }
    else nv
  let nv2 := { nv1 with TTL := now + goJitterOffset cfg.cacheInvalidateTTL r }
  let key := makeBoltKey entityType uuid
  (nv2, ⟨(key, nv2) :: st.store⟩, [Event.cacheWrite key])

/-- The fetch-then-save tail of `CachingBolt.getEntity`: fetch from the
remote API; on failure substitute the zero-value entity when the kind
is `apps` and `IgnoreMissingApps` is set, otherwise propagate the
error; on success (or substitution) normalise and save. -/
def fetchAndStore (cfg : CachingBoltConfig)
    (fetch : String → String → Option Entity) (now : Int) (r : Int × Int)
    (st : BoltState) (entityType uuid : String) :
    Except CacheErr Entity × BoltState × List Event :=
  match fetch entityType uuid with
  | some nv =>
    let res := normaliseAndSaveEntityToDatabase cfg now r st entityType uuid nv
    (Except.ok res.1, res.2.1, Event.remoteFetch entityType uuid :: res.2.2)
  | none =>
    if entityType = "apps" ∧ cfg.ignoreMissingApps = true then
      let res := normaliseAndSaveEntityToDatabase cfg now r st entityType uuid
        Entity.empty
      (Except.ok res.1, res.2.1, Event.remoteFetch entityType uuid :: res.2.2)
    else
      (Except.error CacheErr.fetchFailed, st, [Event.remoteFetch entityType uuid])

/-- `CachingBolt.getEntity`: canonicalize the guid (abort on failure
before any cache or network use), read the bucket; a found record is
returned as-is when its `TTL` is before `now` (`rv.TTL.Before(time.Now())`
— note the direction), otherwise fall through to fetch, normalise and
save. -/
def getEntity (cfg : CachingBoltConfig)
    (fetch : String → String → Option Entity) (now : Int) (r : Int × Int)
    (st : BoltState) (entityType guid : String) :
    Except CacheErr Entity × BoltState × List Event :=
  match canonicalize guid with
  | none => (Except.error CacheErr.invalidGuid, st, [])
  | some u =>
    let key := makeBoltKey entityType u
    match st.store.lookup key with
    | some rv =>
      if rv.TTL < now then
        (Except.ok rv, st, [Event.cacheRead key])
      else
        let res := fetchAndStore cfg fetch now r st entityType u
        (res.1, res.2.1, Event.cacheRead key :: res.2.2)
    | none =>
      let res := fetchAndStore cfg fetch now r st entityType u
      (res.1, res.2.1, Event.cacheRead key :: res.2.2)

/-- `CachingBolt.getSpaceAndOrg`: resolve the space then the
organization, substituting the zero-value entity for a failed step when
`IgnoreMissingApps` is set. -/
def getSpaceAndOrg (cfg : CachingBoltConfig)
    (fetch : String → String → Option Entity) (now : Int) (r2 r3 : Int × Int)
    (st : BoltState) (spaceGuid : String) :
    Except CacheErr (Entity × Entity) × BoltState × List Event :=
  let sres := getEntity cfg fetch now r2 st "spaces" spaceGuid
  match ignoreFallback cfg.ignoreMissingApps sres.1 with
  | Except.error err => (Except.error err, sres.2.1, sres.2.2)
  | Except.ok space =>
    let ores := getEntity cfg fetch now r3 sres.2.1 "organizations"
      space.organizationGUID
    match ignoreFallback cfg.ignoreMissingApps ores.1 with
    | Except.error err => (Except.error err, ores.2.1, sres.2.2 ++ ores.2.2)
    | Except.ok org =>
      (Except.ok (space, org), ores.2.1, sres.2.2 ++ ores.2.2)

/-- `CachingBolt.GetApp`: resolve the app (with the ignore-missing
fallback), then its space and organization, and assemble the `App`
aggregate; the `Guid` field carries the caller's raw string. -/
def GetApp (cfg : CachingBoltConfig)
    (fetch : String → String → Option Entity) (now : Int) (r1 r2 r3 : Int × Int)
    (st : BoltState) (appGuid : String) :
    Except CacheErr App × BoltState × List Event :=
  let ares := getEntity cfg fetch now r1 st "apps" appGuid
  match ignoreFallback cfg.ignoreMissingApps ares.1 with
  | Except.error err => (Except.error err, ares.2.1, ares.2.2)
  | Except.ok app =>
    let sores := getSpaceAndOrg cfg fetch now r2 r3 ares.2.1 app.spaceGUID
    match sores.1 with
    | Except.error err => (Except.error err, sores.2.1, ares.2.2 ++ sores.2.2)
    | Except.ok so =>
      (Except.ok
        { guid := appGuid
          name := app.name
          spaceGuid := app.spaceGUID
          spaceName := so.1.name
          orgGuid := so.1.organizationGUID
          orgName := so.2.name
          ignoredApp := app.appIsOptOut }, sores.2.1, ares.2.2 ++ sores.2.2)

end CachingBolt

namespace CachingMemory

/-- `CachingMemory.getEntity`: canonicalize the guid (abort before any
cache or network use on failure), read the map; a found record is
returned when its `TTL` is before `now` (same comparison direction as
the bolt backend), otherwise fetch from the remote API, stamp
`TTL = now + CacheInvalidateTTL` (no jitter, no suffix stripping) and
store. A failed fetch is an error here; the ignore-missing fallback
lives in `GetApp`. -/
def getEntity (cfg : CachingMemoryConfig)
    (fetch : String → String → Option Entity) (now : Int) (st : MemState)
    (entityType guid : String) :
    Except CacheErr Entity × MemState × List Event :=
  match canonicalize guid with
  | none => (Except.error CacheErr.invalidGuid, st, [])
  | some u =>
    let key := entityType ++ "/" ++ u
    let fetchPath :=
      match fetch entityType u with
      | none =>
        (Except.error CacheErr.fetchFailed, st,
          [Event.cacheRead key, Event.remoteFetch entityType u])
      | some ent =>
        let ent2 := { ent with TTL := now + cfg.cacheInvalidateTTL }
        (Except.ok ent2, MemState.mk ((key, ent2) :: st.entityCache),
          [Event.cacheRead key, Event.remoteFetch entityType u,
            Event.cacheWrite key])
    match st.entityCache.lookup key with
    | some rv =>
      if rv.TTL < now then (Except.ok rv, st, [Event.cacheRead key])
      else fetchPath
    | none => fetchPath

/-- `CachingMemory.GetApp`: three sequential `getEntity` calls (app,
space by the app's space guid, organization by the space's organization
guid), each failure subject to the ignore-missing fallback, then the
`App` aggregate is assembled with the caller's raw guid string. -/
def GetApp (cfg : CachingMemoryConfig)
    (fetch : String → String → Option Entity) (now : Int) (st : MemState)
    (appGuid : String) :
    Except CacheErr App × MemState × List Event :=
  let ares := getEntity cfg fetch now st "apps" appGuid
  match ignoreFallback cfg.ignoreMissingApps ares.1 with
  | Except.error err => (Except.error err, ares.2.1, ares.2.2)
  | Except.ok app =>
    let sres := getEntity cfg fetch now ares.2.1 "spaces" app.spaceGUID
    match ignoreFallback cfg.ignoreMissingApps sres.1 with
    | Except.error err => (Except.error err, sres.2.1, ares.2.2 ++ sres.2.2)
    | Except.ok space =>
      let ores := getEntity cfg fetch now sres.2.1 "organizations"
        space.organizationGUID
      match ignoreFallback cfg.ignoreMissingApps ores.1 with
      | Except.error err =>
        (Except.error err, ores.2.1, ares.2.2 ++ sres.2.2 ++ ores.2.2)
      | Except.ok org =>
        (Except.ok
          { guid := appGuid
            name := app.name
            spaceGuid := app.spaceGUID
            spaceName := space.name
            orgGuid := space.organizationGUID
            orgName := org.name
            ignoredApp := app.appIsOptOut }, ores.2.1,
          ares.2.2 ++ sres.2.2 ++ ores.2.2)

end CachingMemory

namespace CachingEmpty

/-- `CachingEmpty.Open` returns nil: a no-op with no effects. -/
def Open : Except CacheErr Unit × List Event := (Except.ok (), [])

/-- `CachingEmpty.Close` returns nil: a no-op with no effects. -/
def Close : Except CacheErr Unit × List Event := (Except.ok (), [])

/-- `CachingEmpty.FillCache` returns nil: a no-op with no effects. -/
def FillCache : Except CacheErr Unit × List Event := (Except.ok (), [])

/-- `CachingEmpty.GetApp` returns `nil, nil`: a nil `App` pointer
(modelled `none`) and no error, touching neither a cache nor the remote
API. -/
def GetApp (appGuid : String) : Except CacheErr (Option App) × List Event :=
  (Except.ok none, [])

end CachingEmpty

/-! Concrete fixtures used by the theorems below. -/

/-- A canonical (lowercase hyphenated) sample guid. -/
def sampleGuid : String := "6ba7b810-9dad-11d1-80b4-00c04fd430c8"

/-- The same guid with uppercase hex digits: a valid UUID string whose
canonical form differs from it. -/
def sampleGuidUpper : String := "6BA7B810-9DAD-11D1-80B4-00C04FD430C8"

/-- A remote API on which every request fails. -/
def fetchNone : String → String → Option Entity := fun _ _ => none

/-- A cached record whose expiry (100) is still ahead of `now = 0`. -/
def freshEntity : Entity := ⟨"fresh", "", "", [], 100⟩

/-- A cached record whose expiry (-100) passed before `now = 0`. -/
def staleEntity : Entity := ⟨"stale", "", "", [], -100⟩

/-- The record the remote API serves in the refetch scenarios. -/
def remoteEntity : Entity := ⟨"remote", "", "", [], 0⟩

/-- A remote API serving `remoteEntity` for every request. -/
def fetchRemote : String → String → Option Entity := fun _ _ => some remoteEntity

/-- A remote app record whose name carries a blue/green rename suffix. -/
def venerableEntity : Entity := ⟨"billing-venerable", "", "", [], 0⟩

/-- A remote API serving `venerableEntity` for app requests and failing
all others. -/
def fetchVenerable : String → String → Option Entity :=
  fun t _ => if t = "apps" then some venerableEntity else none

/-- An app record carrying the opt-out marker with the string value
"true". -/
def optOutApp : Entity :=
  ⟨"app", "", "", [("F2S_DISABLE_LOGGING", JVal.str "true")], 0⟩

/-- An app record carrying the opt-out marker with the JSON boolean
`true` instead of the string. -/
def boolTrueApp : Entity :=
  ⟨"app", "", "", [("F2S_DISABLE_LOGGING", JVal.bool true)], 0⟩

/-- A remote API serving `optOutApp` for app requests, failing others. -/
def fetchOptOut : String → String → Option Entity :=
  fun t _ => if t = "apps" then some optOutApp else none

/-- A remote API serving `boolTrueApp` for app requests, failing others. -/
def fetchBoolTrue : String → String → Option Entity :=
  fun t _ => if t = "apps" then some boolTrueApp else none

/-! Helper lemmas. -/

/-- Stripping any configured suffix list from the empty name leaves it
empty. -/
theorem stripAppSuffix_empty_name (l : List String) : stripAppSuffix l "" = "" := by
  induction l with
  | nil => rfl
  | cons s rest ih =>
    unfold stripAppSuffix
    cases h : strEndsWith "" s with
    | true =>
      simp only [h, if_pos]
      unfold strDropRight
      rw [show ("" : String).data = [] from rfl]
      simp
    | false => simpa [h] using ih

/-! Claim theorems. -/

/-- C1: evaluation of both backends at the failing inputs of the
inverted expiry check. A cached app record whose `expiresAt` (100) is
still ahead of `now = 0` — which the claim and the source's own doc
comment call a valid cache hit — is discarded: the code goes to the
remote API, overwrites the record and returns the fetched value. A
record whose `expiresAt` (-100) has already passed — stale per the
claim — is returned as a hit, with no remote fetch and no store. The
code's behaviour is the exact inverse of the claimed policy in both the
persistent and the in-memory backend. -/
theorem C1_expiry_inversion_eval :
    (CachingBolt.getEntity ⟨false, 10, []⟩ fetchRemote 0 (0, 1)
        ⟨[(makeBoltKey "apps" sampleGuid, freshEntity)]⟩ "apps" sampleGuid =
      (Except.ok ⟨"remote", "", "", [], 7⟩,
        ⟨[(makeBoltKey "apps" sampleGuid, ⟨"remote", "", "", [], 7⟩),
          (makeBoltKey "apps" sampleGuid, freshEntity)]⟩,
        [Event.cacheRead (makeBoltKey "apps" sampleGuid),
          Event.remoteFetch "apps" sampleGuid,
          Event.cacheWrite (makeBoltKey "apps" sampleGuid)])) ∧
    (CachingBolt.getEntity ⟨false, 10, []⟩ fetchRemote 0 (0, 1)
        ⟨[(makeBoltKey "apps" sampleGuid, staleEntity)]⟩ "apps" sampleGuid =
      (Except.ok staleEntity,
        ⟨[(makeBoltKey "apps" sampleGuid, staleEntity)]⟩,
        [Event.cacheRead (makeBoltKey "apps" sampleGuid)])) ∧
    (CachingMemory.getEntity ⟨false, 10⟩ fetchRemote 0
        ⟨[(makeBoltKey "apps" sampleGuid, freshEntity)]⟩ "apps" sampleGuid =
      (Except.ok ⟨"remote", "", "", [], 10⟩,
        ⟨[(makeBoltKey "apps" sampleGuid, ⟨"remote", "", "", [], 10⟩),
          (makeBoltKey "apps" sampleGuid, freshEntity)]⟩,
        [Event.cacheRead (makeBoltKey "apps" sampleGuid),
          Event.remoteFetch "apps" sampleGuid,
          Event.cacheWrite (makeBoltKey "apps" sampleGuid)])) ∧
    (CachingMemory.getEntity ⟨false, 10⟩ fetchRemote 0
        ⟨[(makeBoltKey "apps" sampleGuid, staleEntity)]⟩ "apps" sampleGuid =
      (Except.ok staleEntity,
        ⟨[(makeBoltKey "apps" sampleGuid, staleEntity)]⟩,
        [Event.cacheRead (makeBoltKey "apps" sampleGuid)])) :=
  ⟨rfl, rfl, rfl, rfl⟩

/-- C3 counterexample: a call to the disabled backend's app-resolution
operation does not go through the Remote Fetcher — it performs no
events at all and returns a nil `App` (no resolution), and the other
operations are equally effect-free no-ops. -/
theorem C3_disabled_no_remote_resolution :
    CachingEmpty.GetApp sampleGuid = (Except.ok none, []) ∧
    CachingEmpty.Open = (Except.ok (), []) ∧
    CachingEmpty.Close = (Except.ok (), []) ∧
    CachingEmpty.FillCache = (Except.ok (), []) :=
  ⟨rfl, rfl, rfl, rfl⟩

/-- C3 amended: for the Disabled backend every operation is a no-op
with no observable effects; `GetApp` returns a nil `App` and no error
for every guid, performing no remote fetch and no cache access —
resolution is bypassed together with caching, rather than forced
through the Remote Fetcher. -/
theorem C3_disabled_noop :
    (∀ g : String, CachingEmpty.GetApp g = (Except.ok none, [])) ∧
    CachingEmpty.Open = (Except.ok (), []) ∧
    CachingEmpty.Close = (Except.ok (), []) ∧
    CachingEmpty.FillCache = (Except.ok (), []) :=
  ⟨fun _ => rfl, rfl, rfl, rfl⟩

/-- C6: for any string the canonicalizer rejects, `getEntity` of either
backend fails with the invalid-guid error and aborts before any use of
the string: the state is unchanged and the event trace is empty — no
remote request, no cache read, no cache write. -/
theorem C6_invalid_guid_aborts (cfgb : CachingBoltConfig)
    (cfgm : CachingMemoryConfig) (fetch : String → String → Option Entity)
    (now : Int) (r : Int × Int) (stb : BoltState) (stm : MemState)
    (entityType guid : String) (h : canonicalize guid = none) :
    CachingBolt.getEntity cfgb fetch now r stb entityType guid =
      (Except.error CacheErr.invalidGuid, stb, []) ∧
    CachingMemory.getEntity cfgm fetch now stm entityType guid =
      (Except.error CacheErr.invalidGuid, stm, []) := by
  constructor
  · unfold CachingBolt.getEntity
    rw [h]
  · unfold CachingMemory.getEntity
    rw [h]

/-- C6 witness: the non-UUID string "not-a-uuid" is rejected, and both
backends abort with the invalid-guid error, unchanged state and no
events. -/
theorem C6_invalid_guid_aborts_witness :
    canonicalize "not-a-uuid" = none ∧
    (CachingBolt.getEntity ⟨false, 10, []⟩ fetchRemote 0 (0, 1) ⟨[]⟩
        "apps" "not-a-uuid" =
      (Except.error CacheErr.invalidGuid, ⟨[]⟩, []) ∧
    CachingMemory.getEntity ⟨false, 10⟩ fetchRemote 0 ⟨[]⟩
        "apps" "not-a-uuid" =
      (Except.error CacheErr.invalidGuid, ⟨[]⟩, [])) :=
  ⟨rfl, C6_invalid_guid_aborts ⟨false, 10, []⟩ ⟨false, 10⟩ fetchRemote 0 (0, 1)
    ⟨[]⟩ ⟨[]⟩ "apps" "not-a-uuid" rfl⟩

/-- C4: with `ignoreMissingApps` configured and the remote app fetch
failing, `GetApp` of either backend does not fail: the app record is
substituted by the zero value, the resulting empty space guid fails
canonicalization, that failure (and the organization's) is substituted
the same way, and an `App` aggregate with empty name fields is returned
with no error. -/
theorem C4_ignore_missing_empty_app (cfgb : CachingBoltConfig)
    (cfgm : CachingMemoryConfig) (fetch : String → String → Option Entity)
    (now : Int) (r1 r2 r3 : Int × Int) (stb : BoltState) (stm : MemState)
    (guid u : String)
    (hb : cfgb.ignoreMissingApps = true)
    (hm : cfgm.ignoreMissingApps = true)
    (hc : canonicalize guid = some u)
    (hlb : stb.store.lookup (makeBoltKey "apps" u) = none)
    (hlm : stm.entityCache.lookup ("apps" ++ "/" ++ u) = none)
    (hf : fetch "apps" u = none) :
    (CachingBolt.GetApp cfgb fetch now r1 r2 r3 stb guid).1 =
      Except.ok ⟨guid, "", "", "", "", "", false⟩ ∧
    (CachingMemory.GetApp cfgm fetch now stm guid).1 =
      Except.ok ⟨guid, "", "", "", "", "", false⟩ := by
  have hlb2 : stb.store.lookup ("apps/" ++ u) = none := by
    simpa [makeBoltKey] using hlb
  have hlm2 : stm.entityCache.lookup ("apps/" ++ u) = none := by
    simpa using hlm
  constructor
  · simp [CachingBolt.GetApp, CachingBolt.getEntity, CachingBolt.fetchAndStore,
      CachingBolt.normaliseAndSaveEntityToDatabase, CachingBolt.getSpaceAndOrg,
      ignoreFallback, makeBoltKey, hc, hb, hf, hlb2, stripAppSuffix_empty_name,
      show canonicalize "" = none from rfl, Entity.empty, Entity.appIsOptOut,
      envLookup]
  · simp [CachingMemory.GetApp, CachingMemory.getEntity, ignoreFallback,
      hc, hm, hf, hlm2, stripAppSuffix_empty_name,
      show canonicalize "" = none from rfl, Entity.empty, Entity.appIsOptOut,
      envLookup]

/-- C4 witness: at empty caches with an always-failing remote API and
`ignoreMissingApps` set, both backends resolve the sample guid to an
`App` with empty name fields and no error. -/
theorem C4_ignore_missing_empty_app_witness :
    (CachingBolt.GetApp ⟨true, 10, []⟩ fetchNone 0 (0, 1) (0, 1) (0, 1) ⟨[]⟩
        sampleGuid).1 =
      Except.ok ⟨sampleGuid, "", "", "", "", "", false⟩ ∧
    (CachingMemory.GetApp ⟨true, 10⟩ fetchNone 0 ⟨[]⟩ sampleGuid).1 =
      Except.ok ⟨sampleGuid, "", "", "", "", "", false⟩ :=
  C4_ignore_missing_empty_app ⟨true, 10, []⟩ ⟨true, 10⟩ fetchNone 0 (0, 1)
    (0, 1) (0, 1) ⟨[]⟩ ⟨[]⟩ sampleGuid sampleGuid rfl rfl rfl rfl rfl rfl

/-- The write event of a bolt save is exactly one `cacheWrite` at the
composite key. -/
theorem boltNormaliseAndSave_events (cfg : CachingBoltConfig) (now : Int)
    (r : Int × Int) (st : BoltState) (etype uuid : String) (nv : Entity) :
    (CachingBolt.normaliseAndSaveEntityToDatabase cfg now r st etype uuid nv).2.2 =
      [Event.cacheWrite (makeBoltKey etype uuid)] := rfl

/-- Complete case analysis of `CachingBolt.getEntity`: invalid guid;
cache hit on an already-expired record; fetch success (normalise and
save); fetch failure substituted for an ignored app (normalise and save
the zero value); fetch failure propagated. -/
theorem boltGetEntity_characterization (cfg : CachingBoltConfig)
    (fetch : String → String → Option Entity) (now : Int) (r : Int × Int)
    (st : BoltState) (etype guid : String) :
    (canonicalize guid = none ∧
      CachingBolt.getEntity cfg fetch now r st etype guid =
        (Except.error CacheErr.invalidGuid, st, [])) ∨
    (∃ u rv, canonicalize guid = some u ∧
      st.store.lookup (makeBoltKey etype u) = some rv ∧ rv.TTL < now ∧
      CachingBolt.getEntity cfg fetch now r st etype guid =
        (Except.ok rv, st, [Event.cacheRead (makeBoltKey etype u)])) ∨
    (∃ u nv, canonicalize guid = some u ∧ fetch etype u = some nv ∧
      CachingBolt.getEntity cfg fetch now r st etype guid =
        (Except.ok (CachingBolt.normaliseAndSaveEntityToDatabase cfg now r st etype u nv).1,
          (CachingBolt.normaliseAndSaveEntityToDatabase cfg now r st etype u nv).2.1,
          [Event.cacheRead (makeBoltKey etype u), Event.remoteFetch etype u,
            Event.cacheWrite (makeBoltKey etype u)])) ∨
    (∃ u, canonicalize guid = some u ∧ fetch etype u = none ∧
      etype = "apps" ∧ cfg.ignoreMissingApps = true ∧
      CachingBolt.getEntity cfg fetch now r st etype guid =
        (Except.ok (CachingBolt.normaliseAndSaveEntityToDatabase cfg now r st etype u Entity.empty).1,
          (CachingBolt.normaliseAndSaveEntityToDatabase cfg now r st etype u Entity.empty).2.1,
          [Event.cacheRead (makeBoltKey etype u), Event.remoteFetch etype u,
            Event.cacheWrite (makeBoltKey etype u)])) ∨
    (∃ u, canonicalize guid = some u ∧ fetch etype u = none ∧
      ¬(etype = "apps" ∧ cfg.ignoreMissingApps = true) ∧
      CachingBolt.getEntity cfg fetch now r st etype guid =
        (Except.error CacheErr.fetchFailed, st,
          [Event.cacheRead (makeBoltKey etype u), Event.remoteFetch etype u])) := by
  cases hc : canonicalize guid with
  | none =>
    left
    refine ⟨rfl, ?_⟩
    unfold CachingBolt.getEntity
    rw [hc]
  | some u =>
    cases hl : st.store.lookup (makeBoltKey etype u) with
    | some rv =>
      by_cases ht : rv.TTL < now
      · right; left
        exact ⟨u, rv, rfl, hl, ht, by
          unfold CachingBolt.getEntity
          rw [hc]
          simp only [hl, if_pos ht]⟩
      · cases hf : fetch etype u with
        | some nv =>
          right; right; left
          exact ⟨u, nv, rfl, hf, by
            unfold CachingBolt.getEntity CachingBolt.fetchAndStore
            rw [hc]
            simp only [hl, if_neg ht, hf, boltNormaliseAndSave_events]⟩
        | none =>
          by_cases hig : etype = "apps" ∧ cfg.ignoreMissingApps = true
          · right; right; right; left
            exact ⟨u, rfl, hf, hig.1, hig.2, by
              unfold CachingBolt.getEntity CachingBolt.fetchAndStore
              rw [hc]
              simp only [hl, if_neg ht, hf, if_pos hig, boltNormaliseAndSave_events]⟩
          · right; right; right; right
            exact ⟨u, rfl, hf, hig, by
              unfold CachingBolt.getEntity CachingBolt.fetchAndStore
              rw [hc]
              simp only [hl, if_neg ht, hf, if_neg hig]⟩
    | none =>
      cases hf : fetch etype u with
      | some nv =>
        right; right; left
        exact ⟨u, nv, rfl, hf, by
          unfold CachingBolt.getEntity CachingBolt.fetchAndStore
          rw [hc]
          simp only [hl, hf, boltNormaliseAndSave_events]⟩
      | none =>
        by_cases hig : etype = "apps" ∧ cfg.ignoreMissingApps = true
        · right; right; right; left
          exact ⟨u, rfl, hf, hig.1, hig.2, by
            unfold CachingBolt.getEntity CachingBolt.fetchAndStore
            rw [hc]
            simp only [hl, hf, if_pos hig, boltNormaliseAndSave_events]⟩
        · right; right; right; right
          exact ⟨u, rfl, hf, hig, by
            unfold CachingBolt.getEntity CachingBolt.fetchAndStore
            rw [hc]
            simp only [hl, hf, if_neg hig]⟩

/-- Complete case analysis of `CachingMemory.getEntity`: invalid guid;
cache hit on an already-expired record; fetch success (store with exact
TTL, nothing else changed); fetch failure propagated. -/
theorem memGetEntity_characterization (cfg : CachingMemoryConfig)
    (fetch : String → String → Option Entity) (now : Int) (st : MemState)
    (etype guid : String) :
    (canonicalize guid = none ∧
      CachingMemory.getEntity cfg fetch now st etype guid =
        (Except.error CacheErr.invalidGuid, st, [])) ∨
    (∃ u rv, canonicalize guid = some u ∧
      st.entityCache.lookup (etype ++ "/" ++ u) = some rv ∧ rv.TTL < now ∧
      CachingMemory.getEntity cfg fetch now st etype guid =
        (Except.ok rv, st, [Event.cacheRead (etype ++ "/" ++ u)])) ∨
    (∃ u ent, canonicalize guid = some u ∧ fetch etype u = some ent ∧
      CachingMemory.getEntity cfg fetch now st etype guid =
        (Except.ok { ent with TTL := now + cfg.cacheInvalidateTTL },
          MemState.mk ((etype ++ "/" ++ u,
            { ent with TTL := now + cfg.cacheInvalidateTTL }) :: st.entityCache),
          [Event.cacheRead (etype ++ "/" ++ u), Event.remoteFetch etype u,
            Event.cacheWrite (etype ++ "/" ++ u)])) ∨
    (∃ u, canonicalize guid = some u ∧ fetch etype u = none ∧
      CachingMemory.getEntity cfg fetch now st etype guid =
        (Except.error CacheErr.fetchFailed, st,
          [Event.cacheRead (etype ++ "/" ++ u), Event.remoteFetch etype u])) := by
  cases hc : canonicalize guid with
  | none =>
    left
    refine ⟨rfl, ?_⟩
    unfold CachingMemory.getEntity
    rw [hc]
  | some u =>
    cases hl : st.entityCache.lookup (etype ++ "/" ++ u) with
    | some rv =>
      by_cases ht : rv.TTL < now
      · right; left
        exact ⟨u, rv, rfl, hl, ht, by
          unfold CachingMemory.getEntity
          rw [hc]
          simp only [hl, if_pos ht]⟩
      · cases hf : fetch etype u with
        | some ent =>
          right; right; left
          exact ⟨u, ent, rfl, hf, by
            unfold CachingMemory.getEntity
            rw [hc]
            simp only [hl, if_neg ht, hf]⟩
        | none =>
          right; right; right
          exact ⟨u, rfl, hf, by
            unfold CachingMemory.getEntity
            rw [hc]
            simp only [hl, if_neg ht, hf]⟩
    | none =>
      cases hf : fetch etype u with
      | some ent =>
        right; right; left
        exact ⟨u, ent, rfl, hf, by
          unfold CachingMemory.getEntity
          rw [hc]
          simp only [hl, hf]⟩
      | none =>
        right; right; right
        exact ⟨u, rfl, hf, by
          unfold CachingMemory.getEntity
          rw [hc]
          simp only [hl, hf]⟩

/-- C2 counterexample: the in-memory backend stores a fetched app
record without the normalization step. With configured suffix list
["-venerable"] the normalizer would store the name "billing", but the
in-memory backend (whose configuration has no suffix-list field at all)
writes the record with name "billing-venerable" unchanged, and stamps
`expiresAt = now + T` exactly rather than applying any jitter draw. -/
theorem C2_memory_unnormalised_store :
    (CachingMemory.getEntity ⟨false, 10⟩ fetchVenerable 0 ⟨[]⟩ "apps" sampleGuid).2.1 =
      MemState.mk [("apps/" ++ sampleGuid, ⟨"billing-venerable", "", "", [], 10⟩)] ∧
    stripAppSuffix ["-venerable"] "billing-venerable" = "billing" ∧
    "billing-venerable" ≠ "billing" := ⟨rfl, rfl, by decide⟩

/-- C2 amended: only the persistent backend normalizes before writing:
every state change of its `getEntity` goes through
`normaliseAndSaveEntityToDatabase` (suffix stripping for apps plus the
jittered TTL) applied to the fetched record, or to the zero-value
record in the ignored-missing-app case. The in-memory backend never
normalizes: its only state change stores the fetched record with every
field unchanged except `expiresAt`, which is set to `now + T` exactly,
with no jitter and no suffix stripping. -/
theorem C2_normalisation_per_backend :
    (∀ (cfg : CachingBoltConfig) (fetch : String → String → Option Entity)
        (now : Int) (r : Int × Int) (st : BoltState) (etype guid : String),
      (CachingBolt.getEntity cfg fetch now r st etype guid).2.1 = st ∨
      ∃ u nv, canonicalize guid = some u ∧
        (fetch etype u = some nv ∨
          (fetch etype u = none ∧ etype = "apps" ∧
            cfg.ignoreMissingApps = true ∧ nv = Entity.empty)) ∧
        (CachingBolt.getEntity cfg fetch now r st etype guid).2.1 =
          (CachingBolt.normaliseAndSaveEntityToDatabase cfg now r st etype u nv).2.1) ∧
    (∀ (cfg : CachingMemoryConfig) (fetch : String → String → Option Entity)
        (now : Int) (st : MemState) (etype guid : String),
      (CachingMemory.getEntity cfg fetch now st etype guid).2.1 = st ∨
      ∃ u ent, canonicalize guid = some u ∧ fetch etype u = some ent ∧
        (CachingMemory.getEntity cfg fetch now st etype guid).2.1 =
          MemState.mk ((etype ++ "/" ++ u,
            { ent with TTL := now + cfg.cacheInvalidateTTL }) :: st.entityCache)) := by
  constructor
  · intro cfg fetch now r st etype guid
    rcases boltGetEntity_characterization cfg fetch now r st etype guid with
      ⟨_, h⟩ | ⟨u, rv, _, _, _, h⟩ | ⟨u, nv, hcan, hf, h⟩ |
      ⟨u, hcan, hf, he, hig, h⟩ | ⟨u, _, _, _, h⟩
    · left; rw [h]
    · left; rw [h]
    · right; exact ⟨u, nv, hcan, Or.inl hf, by rw [h]⟩
    · right; exact ⟨u, Entity.empty, hcan, Or.inr ⟨hf, he, hig, rfl⟩, by rw [h]⟩
    · left; rw [h]
  · intro cfg fetch now st etype guid
    rcases memGetEntity_characterization cfg fetch now st etype guid with
      ⟨_, h⟩ | ⟨u, rv, _, _, _, h⟩ | ⟨u, ent, hcan, hf, h⟩ | ⟨u, _, _, h⟩
    · left; rw [h]
    · left; rw [h]
    · right; exact ⟨u, ent, hcan, hf, by rw [h]⟩
    · left; rw [h]

/-- C5 counterexample: the persistent backend writes a cache entry for
an app whose remote fetch failed. With `ignoreMissingApps` set and an
always-failing remote API, `getEntity` leaves a zero-value record
(jittered TTL 7 = floor(10 * 0.75)) stored under the app's key. -/
theorem C5_bolt_stores_failed_fetch :
    fetchNone "apps" sampleGuid = none ∧
    (CachingBolt.getEntity ⟨true, 10, []⟩ fetchNone 0 (0, 1) ⟨[]⟩ "apps"
        sampleGuid).2.1.store.lookup (makeBoltKey "apps" sampleGuid) =
      some ⟨"", "", "", [], 7⟩ := ⟨rfl, rfl⟩

/-- C5 amended: a cache write happens only at the canonical key of the
requested guid, and only when the remote fetch of that kind+guid
succeeded — except that the persistent backend also writes a
(zero-value) record when an app fetch fails with `ignoreMissingApps`
set. The in-memory backend writes only on a successful fetch. -/
theorem C5_writes_require_fetch :
    (∀ (cfg : CachingBoltConfig) (fetch : String → String → Option Entity)
        (now : Int) (r : Int × Int) (st : BoltState) (etype guid k : String),
      Event.cacheWrite k ∈ (CachingBolt.getEntity cfg fetch now r st etype guid).2.2 →
      ∃ u, canonicalize guid = some u ∧ k = makeBoltKey etype u ∧
        ((∃ nv, fetch etype u = some nv) ∨
          (fetch etype u = none ∧ etype = "apps" ∧ cfg.ignoreMissingApps = true))) ∧
    (∀ (cfg : CachingMemoryConfig) (fetch : String → String → Option Entity)
        (now : Int) (st : MemState) (etype guid k : String),
      Event.cacheWrite k ∈ (CachingMemory.getEntity cfg fetch now st etype guid).2.2 →
      ∃ u ent, canonicalize guid = some u ∧ k = etype ++ "/" ++ u ∧
        fetch etype u = some ent) := by
  constructor
  · intro cfg fetch now r st etype guid k hk
    rcases boltGetEntity_characterization cfg fetch now r st etype guid with
      ⟨_, h⟩ | ⟨u, rv, _, _, _, h⟩ | ⟨u, nv, hcan, hf, h⟩ |
      ⟨u, hcan, hf, he, hig, h⟩ | ⟨u, _, _, _, h⟩
    · rw [h] at hk; simp at hk
    · rw [h] at hk; simp at hk
    · rw [h] at hk
      simp only [List.mem_cons, List.not_mem_nil, or_false] at hk
      rcases hk with h1 | h1 | h1
      · exact absurd h1 (by simp)
      · exact absurd h1 (by simp)
      · exact ⟨u, hcan, by injection h1, Or.inl ⟨nv, hf⟩⟩
    · rw [h] at hk
      simp only [List.mem_cons, List.not_mem_nil, or_false] at hk
      rcases hk with h1 | h1 | h1
      · exact absurd h1 (by simp)
      · exact absurd h1 (by simp)
      · exact ⟨u, hcan, by injection h1, Or.inr ⟨hf, he, hig⟩⟩
    · rw [h] at hk; simp at hk
  · intro cfg fetch now st etype guid k hk
    rcases memGetEntity_characterization cfg fetch now st etype guid with
      ⟨_, h⟩ | ⟨u, rv, _, _, _, h⟩ | ⟨u, ent, hcan, hf, h⟩ | ⟨u, _, _, h⟩
    · rw [h] at hk; simp at hk
    · rw [h] at hk; simp at hk
    · rw [h] at hk
      simp only [List.mem_cons, List.not_mem_nil, or_false] at hk
      rcases hk with h1 | h1 | h1
      · exact absurd h1 (by simp)
      · exact absurd h1 (by simp)
      · exact ⟨u, ent, hcan, by injection h1, hf⟩
    · rw [h] at hk; simp at hk

/-- C5 witness: at the persistent backend with `ignoreMissingApps` set
and an always-failing remote API, the write event at the app's key is
observed, so the theorem applies and yields the ignored-missing-app
disjunct. -/
theorem C5_writes_require_fetch_witness :
    ∃ u, canonicalize sampleGuid = some u ∧
      makeBoltKey "apps" sampleGuid = makeBoltKey "apps" u ∧
      ((∃ nv, fetchNone "apps" u = some nv) ∨
        (fetchNone "apps" u = none ∧ "apps" = "apps" ∧
          (⟨true, 10, []⟩ : CachingBoltConfig).ignoreMissingApps = true)) :=
  C5_writes_require_fetch.1 ⟨true, 10, []⟩ fetchNone 0 (0, 1) ⟨[]⟩ "apps"
    sampleGuid (makeBoltKey "apps" sampleGuid) (by decide)

/-- C7 counterexample: with the configured ordered suffix list
["e", "-venerable"], the normalization of an app named
"billing-venerable" strips the first matching suffix "e", giving
"billing-venerabl" — not the longest matching suffix "-venerable",
whose stripping would give "billing" as the claim requires. -/
theorem C7_first_match_not_longest :
    (CachingBolt.normaliseAndSaveEntityToDatabase ⟨false, 10, ["e", "-venerable"]⟩
        0 (0, 1) ⟨[]⟩ "apps" sampleGuid venerableEntity).1.name = "billing-venerabl" ∧
    strEndsWith "billing-venerable" "-venerable" = true ∧
    strDropRight "billing-venerable" ("-venerable".length) = "billing" ∧
    "billing-venerabl" ≠ "billing" := ⟨rfl, rfl, rfl, by decide⟩

/-- C7 amended: the first matching suffix in configured list order is
stripped (at most one, not necessarily the longest); a name matching no
configured suffix is unchanged; with suffix list ["-venerable"], the
app name "billing-venerable" normalizes to "billing" and "billing" is
unchanged. -/
theorem C7_first_matching_suffix_stripped :
    (∀ (pre : List String) (s : String) (rest : List String) (name : String),
      (∀ t ∈ pre, strEndsWith name t = false) → strEndsWith name s = true →
      stripAppSuffix (pre ++ s :: rest) name = strDropRight name s.length) ∧
    (∀ (l : List String) (name : String),
      (∀ t ∈ l, strEndsWith name t = false) → stripAppSuffix l name = name) ∧
    (CachingBolt.normaliseAndSaveEntityToDatabase ⟨false, 10, ["-venerable"]⟩ 0
        (0, 1) ⟨[]⟩ "apps" sampleGuid venerableEntity).1.name = "billing" ∧
    (CachingBolt.normaliseAndSaveEntityToDatabase ⟨false, 10, ["-venerable"]⟩ 0
        (0, 1) ⟨[]⟩ "apps" sampleGuid ⟨"billing", "", "", [], 0⟩).1.name = "billing" := by
  refine ⟨?_, ?_, rfl, rfl⟩
  · intro pre s rest name hpre hs
    induction pre with
    | nil =>
      show stripAppSuffix (s :: rest) name = _
      unfold stripAppSuffix
      rw [if_pos hs]
    | cons t ts ih =>
      have ht : strEndsWith name t = false := hpre t (by simp)
      show stripAppSuffix (t :: (ts ++ s :: rest)) name = _
      unfold stripAppSuffix
      rw [ht]
      simp only [Bool.false_eq_true, if_false]
      exact ih fun x hx => hpre x (by simp [hx])
  · intro l name h
    induction l with
    | nil => rfl
    | cons t ts ih =>
      have ht : strEndsWith name t = false := h t (by simp)
      unfold stripAppSuffix
      rw [ht]
      simp only [Bool.false_eq_true, if_false]
      exact ih fun x hx => h x (by simp [hx])

/-- C7 witness: the single-element list ["-venerable"] instantiates the
first-match rule on "billing-venerable", stripping to the canonical
name. -/
theorem C7_first_matching_suffix_stripped_witness :
    stripAppSuffix ([] ++ "-venerable" :: []) "billing-venerable" =
      strDropRight "billing-venerable" ("-venerable".length) :=
  C7_first_matching_suffix_stripped.1 [] "-venerable" [] "billing-venerable"
    (by decide) (by decide)

/-- The stored jitter offset lies between `(3*T)/4` (the floor of
`0.75*T`) and `(5*T)/4` for every valid draw. -/
theorem goJitterOffset_bounds (T : Int) (r : Int × Int) (hT : 0 ≤ T)
    (hr : validDraw r) :
    3 * T / 4 ≤ goJitterOffset T r ∧ goJitterOffset T r ≤ 5 * T / 4 := by
  obtain ⟨h0, h1⟩ := hr
  have hb : (0 : Int) < r.2 := lt_of_le_of_lt h0 h1
  have hden : goJitterOffset T r = T * (3 * r.2 + 2 * r.1) / (r.2 * 4) := by
    unfold goJitterOffset
    rw [mul_comm (4 : Int) r.2]
  constructor
  · have hnum : r.2 * (3 * T) ≤ T * (3 * r.2 + 2 * r.1) := by nlinarith
    calc 3 * T / 4 = r.2 * (3 * T) / (r.2 * 4) :=
          (Int.mul_ediv_mul_of_pos _ _ hb).symm
      _ ≤ T * (3 * r.2 + 2 * r.1) / (r.2 * 4) :=
          Int.ediv_le_ediv (by positivity) hnum
      _ = goJitterOffset T r := hden.symm
  · have hnum2 : T * (3 * r.2 + 2 * r.1) ≤ r.2 * (5 * T) := by nlinarith
    calc goJitterOffset T r = T * (3 * r.2 + 2 * r.1) / (r.2 * 4) := hden
      _ ≤ r.2 * (5 * T) / (r.2 * 4) := Int.ediv_le_ediv (by positivity) hnum2
      _ = 5 * T / 4 := Int.mul_ediv_mul_of_pos _ _ hb

/-- C8 counterexample: with base TTL T = 2ns and draw 0, the stored
offset is `floor(2 * 0.75) = 1`, strictly below the claimed closed
lower bound `0.75 * T = 3/2`: the truncating duration conversion can
land the offset just under `0.75 * T`. -/
theorem C8_truncation_below_lower_bound :
    goJitterOffset 2 (0, 1) = 1 ∧
    ¬ ((3 : ℚ) / 4 * 2 ≤ ((goJitterOffset 2 (0, 1) : Int) : ℚ)) ∧
    (CachingBolt.normaliseAndSaveEntityToDatabase ⟨false, 2, []⟩ 0 (0, 1) ⟨[]⟩
        "spaces" sampleGuid Entity.empty).1.TTL = 1 := by
  have h : goJitterOffset 2 (0, 1) = 1 := by decide
  refine ⟨h, ?_, rfl⟩
  rw [h]
  norm_num

/-- C8 amended: for every record the persistent backend's normalizer
stamps with base TTL `T ≥ 0` and any valid draw, the stored
`expiresAt - now` lies in the closed interval `[⌊0.75*T⌋, ⌊1.25*T⌋]` —
within one nanosecond below `0.75*T` at the lower end because the
duration conversion truncates, and never above `1.25*T`. The in-memory
backend's exact offset `T` also lies in these bounds. -/
theorem C8_jitter_within_floor_bounds :
    (∀ (cfg : CachingBoltConfig) (now : Int) (r : Int × Int) (st : BoltState)
        (etype uuid : String) (nv : Entity),
      0 ≤ cfg.cacheInvalidateTTL → validDraw r →
      3 * cfg.cacheInvalidateTTL / 4 ≤
        (CachingBolt.normaliseAndSaveEntityToDatabase cfg now r st etype uuid nv).1.TTL - now ∧
      (CachingBolt.normaliseAndSaveEntityToDatabase cfg now r st etype uuid nv).1.TTL - now ≤
        5 * cfg.cacheInvalidateTTL / 4) ∧
    (∀ cfg : CachingMemoryConfig, 0 ≤ cfg.cacheInvalidateTTL →
      3 * cfg.cacheInvalidateTTL / 4 ≤ cfg.cacheInvalidateTTL ∧
      cfg.cacheInvalidateTTL ≤ 5 * cfg.cacheInvalidateTTL / 4) := by
  constructor
  · intro cfg now r st etype uuid nv hT hr
    have e : (CachingBolt.normaliseAndSaveEntityToDatabase cfg now r st etype uuid nv).1.TTL =
        now + goJitterOffset cfg.cacheInvalidateTTL r := rfl
    rw [e, add_sub_cancel_left]
    exact goJitterOffset_bounds cfg.cacheInvalidateTTL r hT hr
  · intro cfg h
    omega

/-- C8 witness: base TTL 4 with draw 1/2 stores offset 4, inside
`[3, 5] = [(3*4)/4, (5*4)/4]`. -/
theorem C8_jitter_within_floor_bounds_witness :
    3 * (4 : Int) / 4 ≤
      (CachingBolt.normaliseAndSaveEntityToDatabase ⟨false, 4, []⟩ 0 (1, 2) ⟨[]⟩
        "apps" sampleGuid Entity.empty).1.TTL - 0 ∧
    (CachingBolt.normaliseAndSaveEntityToDatabase ⟨false, 4, []⟩ 0 (1, 2) ⟨[]⟩
        "apps" sampleGuid Entity.empty).1.TTL - 0 ≤ 5 * (4 : Int) / 4 :=
  C8_jitter_within_floor_bounds.1 ⟨false, 4, []⟩ 0 (1, 2) ⟨[]⟩ "apps"
    sampleGuid Entity.empty (by decide) (by decide)

/-- C9: the opt-out flag is true exactly when the environment map
contains the marker key bound to the string "true": an absent key, an
empty map, or any other value — including the JSON boolean `true` —
yields false; and the assembled `App` carries exactly this flag, shown
on concrete `GetApp` runs for both the string and the boolean variant. -/
theorem C9_optout_iff :
    (∀ e : Entity, e.appIsOptOut = true ↔
      e.environment.lookup "F2S_DISABLE_LOGGING" = some (JVal.str "true")) ∧
    Entity.appIsOptOut ⟨"a", "s", "o", [("F2S_DISABLE_LOGGING", JVal.str "true")], 0⟩ = true ∧
    Entity.appIsOptOut ⟨"a", "s", "o", [], 0⟩ = false ∧
    Entity.appIsOptOut ⟨"a", "s", "o", [("F2S_DISABLE_LOGGING", JVal.bool true)], 0⟩ = false ∧
    (CachingMemory.GetApp ⟨true, 10⟩ fetchOptOut 0 ⟨[]⟩ sampleGuid).1 =
      Except.ok ⟨sampleGuid, "app", "", "", "", "", true⟩ ∧
    (CachingMemory.GetApp ⟨true, 10⟩ fetchBoolTrue 0 ⟨[]⟩ sampleGuid).1 =
      Except.ok ⟨sampleGuid, "app", "", "", "", "", false⟩ := by
  refine ⟨?_, rfl, rfl, rfl, rfl, rfl⟩
  intro e
  unfold Entity.appIsOptOut envLookup
  cases h : e.environment.lookup "F2S_DISABLE_LOGGING" with
  | none => simp [h]
  | some v => simp [h, beq_iff_eq]

/-- C10: whenever `GetApp` of either backend succeeds, the returned
`App`'s `Guid` field is the caller's raw input string — not the
canonical lowercase form used for the cache key and the request path. -/
theorem C10_raw_guid_in_app :
    (∀ (cfg : CachingBoltConfig) (fetch : String → String → Option Entity)
        (now : Int) (r1 r2 r3 : Int × Int) (st : BoltState) (appGuid : String)
        (a : App),
      (CachingBolt.GetApp cfg fetch now r1 r2 r3 st appGuid).1 = Except.ok a →
      a.guid = appGuid) ∧
    (∀ (cfg : CachingMemoryConfig) (fetch : String → String → Option Entity)
        (now : Int) (st : MemState) (appGuid : String) (a : App),
      (CachingMemory.GetApp cfg fetch now st appGuid).1 = Except.ok a →
      a.guid = appGuid) := by
  constructor
  · intro cfg fetch now r1 r2 r3 st appGuid a h
    simp only [CachingBolt.GetApp] at h
    split at h
    · simp at h
    · split at h
      · simp at h
      · simp at h
        subst h
        rfl
  · intro cfg fetch now st appGuid a h
    simp only [CachingMemory.GetApp] at h
    split at h
    · simp at h
    · split at h
      · simp at h
      · split at h
        · simp at h
        · simp at h
          subst h
          rfl

/-- C10 witness: an uppercase (non-canonical) guid is echoed back
verbatim in the resulting `App` even though its canonical form, used
internally, is the lowercase string. -/
theorem C10_raw_guid_in_app_witness :
    (App.mk sampleGuidUpper "" "" "" "" "" false).guid = sampleGuidUpper ∧
    canonicalize sampleGuidUpper = some sampleGuid ∧
    sampleGuid ≠ sampleGuidUpper :=
  ⟨C10_raw_guid_in_app.1 ⟨true, 10, []⟩ fetchNone 0 (0, 1) (0, 1) (0, 1) ⟨[]⟩
      sampleGuidUpper (App.mk sampleGuidUpper "" "" "" "" "" false) (by rfl),
    by rfl, by decide⟩
